import Mathlib

/-!
# Source Wrench — verification of the reference cache and payload assembler

Shallow embedding of the loaded-source-file reference cache
(`src/src/components/FileOperations.tsx`), the compilation-payload assembler
(`src/src/App.tsx`, `compileModel`), the animation-entry handlers
(`src/src/components/SequenceMenu.tsx`, `AnimationEntry`), the body-part model
removal handler (`BodyPartModelEntry`, `removeBodyPartModel`), and the sequence
animation grid (`src/src/components/SequenceEntry.tsx`).

Asynchronous dialog and backend calls are embedded by parametrising the handler
over the dialog's result and over the parsing oracle as a function, and by
returning, next to the new state, the list of backend invocations the handler
issued.
-/

namespace SourceWrench

/-- The JS `Map<string, number>` (`loadedModelFiles`) as an insertion-ordered
association list from path to reference count.  Counts are integers because the
source works with JS numbers and subtracts without a lower bound. -/
abbrev Cache := List (String × Int)

/-- JS `Map.prototype.get`: the value stored at `k`, if any. -/
def mapGet : Cache → String → Option Int
  | [], _ => none
  | e :: rest, k => if e.1 = k then some e.2 else mapGet rest k

/-- JS `Map.prototype.set`: update the value in place if the key exists,
otherwise append a new entry. -/
def mapSet : Cache → String → Int → Cache
  | [], k, v => [(k, v)]
  | e :: rest, k, v => if e.1 = k then (k, v) :: rest else e :: mapSet rest k v

/-- JS `Map.prototype.delete`: remove the entry for `k`, if any. -/
def mapDelete : Cache → String → Cache
  | [], _ => []
  | e :: rest, k => if e.1 = k then mapDelete rest k else e :: mapDelete rest k

/-- Parsed metadata returned by the `load_file` oracle (`LoadedFileData` in
`FileOperations.tsx`).  The editor consumes only the animation names
(`loadedFile.animations.map((animation) => animation.name)`) and the part names
(`loadedFile.parts.map((part) => part.name)`), so each collection is embedded
as its list of names; bones, channels and vertices are never inspected by the
code under verification. -/
structure LoadedFileData where
  skeleton : List String
  animations : List String
  parts : List String
deriving DecidableEq

/-- Type `LoadedFile = LoadedFileData` plus the `path` field. -/
structure LoadedFile where
  path : String
  data : LoadedFileData
deriving DecidableEq

/-- A call issued to the Tauri backend via `invoke`. -/
inductive BackendCall where
  | loadFile (path : String)
  | unloadFile (path : String)
deriving DecidableEq

/-- Function `manageLoadedModelFiles` (`FileOperations.tsx` lines 96–119): the cache's
`replace previousPath path` operation.  Returns the updated count map together
with the list of paths passed to `invoke('unload_file', …)`. -/
def manageLoadedModelFiles (previousPath path : String) (m : Cache) :
    Cache × List String :=
  if previousPath = path then (m, [])
  else
    let filePathCount := (mapGet m path).getD 0
    let m1 := mapSet m path (filePathCount + 1)
    match mapGet m1 previousPath with
    | none => (m1, [])
    | some previousCount =>
        let currentCount := previousCount - 1
        if currentCount ≤ 0 then (mapDelete m1 previousPath, [previousPath])
        else (mapSet m1 previousPath currentCount, [])

/-- Function `unloadModelFile` (`FileOperations.tsx` lines 121–135): the cache's
`release path` operation.  Note the `loadedModelFiles.get(path) ?? 1` default:
an absent path is treated as if its count were 1.  Returns the updated count
map together with the list of paths passed to `invoke('unload_file', …)`. -/
def unloadModelFile (path : String) (m : Cache) : Cache × List String :=
  if path = "" then (m, [])
  else
    let filePathCount := (mapGet m path).getD 1
    let newCount := filePathCount - 1
    if newCount = 0 then (mapDelete m path, [path])
    else (mapSet m path newCount, [])

/-- Everything `loadModelFile` produces: its return value, the cache state it
leaves behind, and the backend calls it issued, in order. -/
structure LoadResult where
  result : Option LoadedFile
  cache : Cache
  calls : List BackendCall
deriving DecidableEq

/-- Function `loadModelFile` (`FileOperations.tsx` lines 64–94): the cache's `acquire`.
The asynchronous file dialog is embedded as its result `dialog` (`none` when
the user cancels) and the `load_file` backend call as the function `oracle`
(`none` models the backend returning `null`).  Mirrors the source's order:
dialog, then the oracle, then `manageLoadedModelFiles previousPath selected`. -/
def loadModelFile (dialog : Option String) (oracle : String → Option LoadedFileData)
    (previousPath : String) (m : Cache) : LoadResult :=
  match dialog with
  | none => ⟨none, m, []⟩
  | some selectedFile =>
      match oracle selectedFile with
      | none => ⟨none, m, [BackendCall.loadFile selectedFile]⟩
      | some loadedFiles =>
          let managed := manageLoadedModelFiles previousPath selectedFile m
          ⟨some ⟨selectedFile, loadedFiles⟩, managed.1,
            BackendCall.loadFile selectedFile :: managed.2.map BackendCall.unloadFile⟩

/-! ## Map lemmas -/

theorem mapGet_mapSet_self (m : Cache) (k : String) (v : Int) :
    mapGet (mapSet m k v) k = some v := by
  induction m with
  | nil => simp [mapGet, mapSet]
  | cons e rest ih =>
      by_cases h : e.1 = k <;> simp [mapGet, mapSet, h, ih]

theorem mapGet_mapSet_ne (m : Cache) (k k' : String) (v : Int) (h : k' ≠ k) :
    mapGet (mapSet m k v) k' = mapGet m k' := by
  induction m with
  | nil => simp [mapGet, mapSet, Ne.symm h]
  | cons e rest ih =>
      by_cases he : e.1 = k
      · subst he
        simp [mapGet, mapSet, Ne.symm h]
      · by_cases he' : e.1 = k' <;> simp [mapGet, mapSet, h, he, he', ih]

theorem mapGet_mapDelete_ne (m : Cache) (k k' : String) (h : k' ≠ k) :
    mapGet (mapDelete m k) k' = mapGet m k' := by
  induction m with
  | nil => simp [mapGet, mapDelete]
  | cons e rest ih =>
      by_cases he : e.1 = k
      · subst he
        simp [mapGet, mapDelete, Ne.symm h, ih]
      · by_cases he' : e.1 = k' <;> simp [mapGet, mapDelete, h, he, he', ih]

theorem mapDelete_of_mapGet_none (m : Cache) (k : String) (h : mapGet m k = none) :
    mapDelete m k = m := by
  induction m with
  | nil => simp [mapDelete]
  | cons e rest ih =>
      by_cases he : e.1 = k
      · simp [mapGet, he] at h
      · simp [mapGet, he] at h
        simp [mapDelete, he, ih h]

/-- C8: `replace(p, p)` — `manageLoadedModelFiles` with `previousPath === path`
— is a pure no-op: the cache is returned unchanged and no backend call is
issued (so in particular no acquire and no release happened). -/
theorem C8_replace_same_path_noop (p : String) (m : Cache) :
    manageLoadedModelFiles p p m = (m, []) := by
  simp [manageLoadedModelFiles]

/-! ## C7 — release on an absent path -/

/-- C7 counterexample: releasing a path that is not in the cache does issue a
backend unload notification.  With an empty cache, `unloadModelFile "a.smd"`
defaults the count to 1 (`?? 1`), reaches 0, and calls
`invoke('unload_file')` — refuting the claim that no backend unload
notification is issued. -/
theorem C7_counterexample :
    ¬ (unloadModelFile ("a.smd") []).2 = [] := by
  decide

/-- C7 amended: calling `release` (`unloadModelFile`) on a path not present in
the cache never throws and leaves the count map unchanged, but — unless the
path is the empty string, for which the whole call is a no-op — it issues one
spurious backend `unload_file` notification for that path. -/
theorem C7_release_absent (p : String) (m : Cache) (h : mapGet m p = none) :
    unloadModelFile p m = (m, if p = "" then [] else [p]) := by
  by_cases hp : p = ""
  · simp [unloadModelFile, hp]
  · simp [unloadModelFile, hp, h, mapDelete_of_mapGet_none m p h]

theorem C7_release_absent_witness :
    unloadModelFile ("a.smd") [("b.smd", 2)] = ([("b.smd", 2)], ["a.smd"]) := by
  have h := C7_release_absent ("a.smd") [("b.smd", 2)] (by decide)
  simpa using h

/-! ## C1 — acquire on an already-cached path -/

/-- The count stored for the newly selected path after
`manageLoadedModelFiles previousPath path`: it is always the old count
(defaulted to 0) plus one, whatever happens to `previousPath`. -/
theorem manage_get_path (prev p : String) (m : Cache) (h : prev ≠ p) :
    mapGet (manageLoadedModelFiles prev p m).1 p
      = some ((mapGet m p).getD 0 + 1) := by
  have hne' : p ≠ prev := Ne.symm h
  unfold manageLoadedModelFiles
  rw [if_neg h]
  cases hmg : mapGet (mapSet m p ((mapGet m p).getD 0 + 1)) prev with
  | none => simp [hmg, mapGet_mapSet_self]
  | some pc =>
      by_cases hcc : pc - 1 ≤ 0
      · simp [hmg, hcc, mapGet_mapDelete_ne _ _ _ hne', mapGet_mapSet_self]
      · simp [hmg, hcc, mapGet_mapSet_ne _ _ _ _ hne', mapGet_mapSet_self]

theorem count_loadFile_map_unloadFile (s : String) (l : List String) :
    (l.map BackendCall.unloadFile).count (BackendCall.loadFile s) = 0 := by
  rw [List.count_eq_zero]
  simp

/-- C1 counterexample: with `"a.smd"` already cached at count 1, a
`loadModelFile` acquire in which the user selects `"a.smd"` again (from an
entry whose previous path is empty) still invokes the `load_file` parsing
oracle — the call list contains a `loadFile` call, refuting the claim that the
oracle is not invoked a second time for a cached path. -/
theorem C1_counterexample :
    ¬ (loadModelFile (some ("a.smd")) (fun _ => some ⟨[], ["idle"], []⟩) ""
          [("a.smd", 1)]).calls.count (BackendCall.loadFile ("a.smd")) = 0 := by
  decide

/-- C1 amended: when the user selects a path `sel` already cached at count `c`
from an entry whose previous path differs from `sel`, the cache increments the
path's count to `c + 1`, but the parsing oracle is invoked (exactly one
`load_file` backend call for `sel`) and the returned metadata is the oracle's
fresh result — the cache stores only reference counts, never parsed
metadata, so nothing is returned "from the cache". -/
theorem C1_acquire_cached (m : Cache) (prev sel : String) (g : LoadedFileData)
    (oracle : String → Option LoadedFileData) (c : Int)
    (hc : mapGet m sel = some c) (hne : prev ≠ sel) (ho : oracle sel = some g) :
    mapGet (loadModelFile (some sel) oracle prev m).cache sel = some (c + 1) ∧
    (loadModelFile (some sel) oracle prev m).result = some ⟨sel, g⟩ ∧
    (loadModelFile (some sel) oracle prev m).calls.count
        (BackendCall.loadFile sel) = 1 := by
  have h1 := manage_get_path prev sel m hne
  simp [loadModelFile, ho, h1, hc, count_loadFile_map_unloadFile]

theorem C1_acquire_cached_witness :
    mapGet (loadModelFile (some ("a.smd")) (fun _ => some ⟨[], ["idle"], []⟩) ""
        [("a.smd", 1)]).cache ("a.smd") = some 2 ∧
    (loadModelFile (some ("a.smd")) (fun _ => some ⟨[], ["idle"], []⟩) ""
        [("a.smd", 1)]).result = some ⟨"a.smd", ⟨[], ["idle"], []⟩⟩ ∧
    (loadModelFile (some ("a.smd")) (fun _ => some ⟨[], ["idle"], []⟩) ""
        [("a.smd", 1)]).calls.count (BackendCall.loadFile ("a.smd")) = 1 := by
  have h := C1_acquire_cached [("a.smd", 1)] "" ("a.smd") ⟨[], ["idle"], []⟩
      (fun _ => some ⟨[], ["idle"], []⟩) 1 (by decide) (by decide) rfl
  simpa using h

/-! ## C2 — refcount invariant over acquire/release sequences

An acquire on path `p` is `manageLoadedModelFiles q p` with a previous path
`q ≠ p` (the claim's "distinct previous path"; starting from an empty cache and
operating on the single path `p`, `q` is never a cache key).  A release is
`unloadModelFile p`. -/

inductive CacheOp where
  | acquire
  | release
deriving DecidableEq

/-- One user-level cache operation on the single path `p`, acquires using the
distinct previous path `q`. -/
def runOp (q p : String) (m : Cache) : CacheOp → Cache
  | CacheOp.acquire => (manageLoadedModelFiles q p m).1
  | CacheOp.release => (unloadModelFile p m).1

/-- A whole sequence of operations on the single path `p`. -/
def runOps (q p : String) (ops : List CacheOp) (m : Cache) : Cache :=
  ops.foldl (runOp q p) m

/-- The cache state reachable while operating on the single path `p`:
empty, or exactly one entry for `p` with a positive count. -/
def stateOf (p : String) (k : Nat) : Cache :=
  if k = 0 then [] else [(p, (k : Int))]

/-- Predicate `balancedFrom k ops` holds when, starting from a count of `k`, no release
in `ops` ever hits an absent entry (every release finds a positive count). -/
def balancedFrom : Nat → List CacheOp → Bool
  | _, [] => true
  | n, CacheOp.acquire :: rest => balancedFrom (n + 1) rest
  | 0, CacheOp.release :: _ => false
  | n + 1, CacheOp.release :: rest => balancedFrom n rest

theorem manage_stateOf (q p : String) (hq : q ≠ p) (k : Nat) :
    manageLoadedModelFiles q p (stateOf p k) = (stateOf p (k + 1), []) := by
  cases k with
  | zero => simp [manageLoadedModelFiles, stateOf, mapGet, mapSet, hq, Ne.symm hq]
  | succ j =>
      simp [manageLoadedModelFiles, stateOf, mapGet, mapSet, hq, Ne.symm hq]

theorem unload_stateOf (p : String) (hp : p ≠ "") (k : Nat) :
    unloadModelFile p (stateOf p (k + 1))
      = (stateOf p k, if k = 0 then [p] else []) := by
  have hcast : ((k + 1 : Nat) : Int) - 1 = (k : Int) := by push_cast; ring
  by_cases hk : k = 0
  · subst hk
    simp [unloadModelFile, stateOf, mapGet, mapDelete, hp]
  · have hk' : ((k : Nat) : Int) ≠ 0 := by exact_mod_cast hk
    simp [unloadModelFile, stateOf, mapGet, mapSet, hp, hk, hcast, hk']

theorem runOps_stateOf (q p : String) (hp : p ≠ "") (hq : q ≠ p)
    (ops : List CacheOp) (k : Nat) (hbal : balancedFrom k ops = true) :
    runOps q p ops (stateOf p k)
      = stateOf p (k + ops.count CacheOp.acquire - ops.count CacheOp.release) := by
  induction ops generalizing k with
  | nil => simp [runOps]
  | cons op rest ih =>
      cases op with
      | acquire =>
          have hb : balancedFrom (k + 1) rest = true := by
            simpa [balancedFrom] using hbal
          have step : runOp q p (stateOf p k) CacheOp.acquire = stateOf p (k + 1) := by
            simp [runOp, manage_stateOf q p hq k]
          have tail := ih (k + 1) hb
          have : runOps q p (CacheOp.acquire :: rest) (stateOf p k)
              = runOps q p rest (stateOf p (k + 1)) := by
            simp [runOps, step]
          rw [this, tail]
          congr 1
          simp [List.count_cons]
          omega
      | release =>
          cases k with
          | zero => simp [balancedFrom] at hbal
          | succ j =>
              have hb : balancedFrom j rest = true := by
                simpa [balancedFrom] using hbal
              have step : runOp q p (stateOf p (j + 1)) CacheOp.release = stateOf p j := by
                simp [runOp, unload_stateOf p hp j]
              have tail := ih j hb
              have : runOps q p (CacheOp.release :: rest) (stateOf p (j + 1))
                  = runOps q p rest (stateOf p j) := by
                simp [runOps, step]
              rw [this, tail]
              congr 1
              simp [List.count_cons]
              omega

/-- Balance guarantees that releases never outnumber the starting count plus
the acquires. -/
theorem balancedFrom_le (ops : List CacheOp) (k : Nat)
    (hbal : balancedFrom k ops = true) :
    ops.count CacheOp.release ≤ k + ops.count CacheOp.acquire := by
  induction ops generalizing k with
  | nil => simp
  | cons op rest ih =>
      cases op with
      | acquire =>
          have hb : balancedFrom (k + 1) rest = true := by
            simpa [balancedFrom] using hbal
          have := ih (k + 1) hb
          simp [List.count_cons]
          omega
      | release =>
          cases k with
          | zero => simp [balancedFrom] at hbal
          | succ j =>
              have hb : balancedFrom j rest = true := by
                simpa [balancedFrom] using hbal
              have := ih j hb
              simp [List.count_cons]
              omega

/-- C2 counterexample: the sequence release-then-acquire on `"a.smd"` from the
empty cache has one acquire and one release (difference zero, so the claim
says the entry is absent), yet the cache holds the entry with count 1: the
release on the absent path defaulted the count to 1 (`?? 1`) and deleted
nothing, and the subsequent acquire inserted a fresh entry. -/
theorem C2_counterexample :
    ¬ mapGet (runOps "" ("a.smd") [CacheOp.release, CacheOp.acquire] []) ("a.smd")
      = (if [CacheOp.release, CacheOp.acquire].count CacheOp.release
              < [CacheOp.release, CacheOp.acquire].count CacheOp.acquire
          then some (([CacheOp.release, CacheOp.acquire].count CacheOp.acquire : Int)
              - [CacheOp.release, CacheOp.acquire].count CacheOp.release)
          else none) := by
  decide

/-- C2 amended: for every finite sequence of acquires (with distinct previous
path) and releases on a single non-empty path starting from the empty cache,
**provided no release is performed while the entry is absent** (`balancedFrom`),
the cache holds an entry for the path iff the number of acquires minus the
number of releases is positive, and the stored count then equals that
difference. -/
theorem C2_refcount_invariant (p : String) (ops : List CacheOp) (hp : p ≠ "")
    (hbal : balancedFrom 0 ops = true) :
    mapGet (runOps "" p ops []) p
      = if ops.count CacheOp.release < ops.count CacheOp.acquire
        then some ((ops.count CacheOp.acquire : Int) - ops.count CacheOp.release)
        else none := by
  have hq : ("" : String) ≠ p := Ne.symm hp
  have h := runOps_stateOf "" p hp hq ops 0 hbal
  have hle := balancedFrom_le ops 0 hbal
  have h0 : stateOf p 0 = [] := by simp [stateOf]
  rw [h0] at h
  rw [h]
  have ha : 0 + ops.count CacheOp.acquire - ops.count CacheOp.release
      = ops.count CacheOp.acquire - ops.count CacheOp.release := by omega
  rw [ha]
  by_cases hlt : ops.count CacheOp.release < ops.count CacheOp.acquire
  · rw [if_pos hlt]
    have hne : ops.count CacheOp.acquire - ops.count CacheOp.release ≠ 0 := by omega
    have hcast := Nat.cast_sub (R := Int) (le_of_lt hlt)
    simp [stateOf, hne, mapGet, hcast]
  · rw [if_neg hlt]
    have hz : ops.count CacheOp.acquire - ops.count CacheOp.release = 0 := by omega
    simp [stateOf, hz, mapGet]

theorem C2_refcount_invariant_witness :
    mapGet (runOps "" ("a.smd")
        [CacheOp.acquire, CacheOp.acquire, CacheOp.release] []) ("a.smd")
      = some 1 := by
  have h := C2_refcount_invariant ("a.smd")
      [CacheOp.acquire, CacheOp.acquire, CacheOp.release] (by decide) (by decide)
  exact h.trans (by decide)

/-! ## Edit model entities (`BodyPartEntry.tsx`, `BodyPartModelEntry`,
`SequenceMenu.tsx`/`AnimationEntry`, `SequenceEntry.tsx`) -/

/-- Field `data` of `BodyPartModelEntryProperties` (`src/unnamed/part_000`). -/
structure BodyPartModelData where
  name : String
  blank : Bool
  file_source : String
  part_names : List (Option String)
deriving DecidableEq

/-- Entry `BodyPartModelEntryProperties`: identifier plus data (the `setBodyPartModels`
store setter is part of the UI plumbing, not of the data). -/
structure BodyPartModelEntryProperties where
  identifier : Nat
  data : BodyPartModelData
deriving DecidableEq

/-- Field `data` of `BodyPartEntryProperties` (`BodyPartEntry.tsx`). -/
structure BodyPartData where
  name : String
  models : List BodyPartModelEntryProperties
deriving DecidableEq

structure BodyPartEntryProperties where
  identifier : Nat
  data : BodyPartData
deriving DecidableEq

/-- Field `data` of `AnimationEntryProperties` (`SequenceMenu.tsx`). -/
structure AnimationData where
  name : String
  file_source : String
  source_animation : String
deriving DecidableEq

structure AnimationEntryProperties where
  identifier : Nat
  data : AnimationData
deriving DecidableEq

/-- Field `data` of `SequenceEntryProperties` (`SequenceEntry.tsx`). -/
structure SequenceData where
  name : String
  animations : List (List String)
deriving DecidableEq

structure SequenceEntryProperties where
  identifier : Nat
  data : SequenceData
deriving DecidableEq

/-! ## Payload assembler (`App.tsx`, `compileModel`, lines 96–121) -/

structure ImputedModel where
  name : String
  is_blank : Bool
  file_source : String
  part_names : List (Option String)
deriving DecidableEq

structure ImputedBodyPart where
  name : String
  models : List ImputedModel
deriving DecidableEq

structure ImputedAnimation where
  name : String
  file_source : String
  animation_name : String
deriving DecidableEq

structure ImputedSequence where
  name : String
  animations : List String
deriving DecidableEq

/-- Payload type `ImputedCompilationData` (`App.tsx` lines 66–87). -/
structure ImputedCompilationData where
  model_name : String
  export_path : String
  body_parts : List ImputedBodyPart
  animations : List ImputedAnimation
  sequences : List ImputedSequence
deriving DecidableEq

/-- Request assembly of `compileModel` (`App.tsx` lines 97–118).  Note that
`part_names := model.data.part_names` copies the list verbatim and
`sequence.data.animations.flat(1)` is `List.flatten`. -/
def compileModel (modelName modelExportPath : String)
    (bodyPartEntries : List BodyPartEntryProperties)
    (animationEntries : List AnimationEntryProperties)
    (sequenceEntries : List SequenceEntryProperties) : ImputedCompilationData :=
  { model_name := modelName
    export_path := modelExportPath
    body_parts := bodyPartEntries.map fun bodyPart =>
      { name := bodyPart.data.name
        models := bodyPart.data.models.map fun model =>
          { name := model.data.name
            is_blank := model.data.blank
            file_source := model.data.file_source
            part_names := model.data.part_names } }
    animations := animationEntries.map fun animation =>
      { name := animation.data.name
        file_source := animation.data.file_source
        animation_name := animation.data.source_animation }
    sequences := sequenceEntries.map fun sequence =>
      { name := sequence.data.name
        animations := sequence.data.animations.flatten } }

/-! ## C3 — part-name list assembly -/

/-- C3 counterexample: the scenario body part `"Head"` with model `"Head_Ref"`
and `selectedPartNames = ["eyes", null, "jaw"]`.  The claim says the assembled
`part_names` equals the source list with every null dropped
(`[some "eyes", some "jaw"]`, i.e. `["eyes", "jaw"]`); the code copies the list
verbatim, so the assembled list still contains the null. -/
theorem C3_counterexample :
    ¬ ((compileModel ("m") ("") [⟨0, ⟨"Head", [⟨0, ⟨"Head_Ref", false, "head.smd",
            [some ("eyes"), none, some ("jaw")]⟩⟩]⟩⟩] [] []).body_parts.map
          fun bp => bp.models.map fun mdl => mdl.part_names)
      = [[([some ("eyes"), none, some ("jaw")] : List (Option String)).filter
            Option.isSome]] := by
  decide

/-- C3 amended: the assembled per-model part-name list equals the model's
`part_names` verbatim — unset (null) entries are preserved, not dropped; in
particular `["eyes", null, "jaw"]` assembles to `["eyes", null, "jaw"]`. -/
theorem C3_part_names_verbatim (mn ep : String)
    (bps : List BodyPartEntryProperties) (ans : List AnimationEntryProperties)
    (sqs : List SequenceEntryProperties) :
    ((compileModel mn ep bps ans sqs).body_parts.map
        fun bp => bp.models.map fun mdl => mdl.part_names)
      = bps.map fun bp => bp.data.models.map fun mdl => mdl.data.part_names := by
  simp [compileModel, List.map_map, Function.comp]

/-! ## C4 — sequence grid assembly -/

/-- C4 counterexample: the scenario grid `[["idle","idle"],["run",""]]` and the
differently-rowed grid `[["idle"],["idle"],["run"],[""]]` assemble to the
**identical** request, and the assembled sequence entry holds the flat list
`["idle","idle","run",""]` — so the request cannot contain the grid "as an
ordered sequence of ordered rows, unchanged": the row structure is lost. -/
theorem C4_counterexample :
    (compileModel ("m") ("") [] []
        [⟨0, ⟨"walk", [["idle", "idle"], ["run", ""]]⟩⟩]).sequences
      = [⟨"walk", ["idle", "idle", "run", ""]⟩] ∧
    compileModel ("m") ("") [] [] [⟨0, ⟨"walk", [["idle", "idle"], ["run", ""]]⟩⟩]
      = compileModel ("m") ("") [] []
          [⟨0, ⟨"walk", [["idle"], ["idle"], ["run"], [""]]⟩⟩] ∧
    ([["idle", "idle"], ["run", ""]] : List (List String))
      ≠ [["idle"], ["idle"], ["run"], [""]] := by
  refine ⟨by decide, by decide, by decide⟩

/-- C4 amended: assembly exports each sequence's 2-D animation grid flattened
one level (`flat(1)`), i.e. row-major concatenation: cell order is preserved
and empty cells are kept as empty strings, but the row boundaries are not
represented in the request.  The scenario grid `[["idle","idle"],["run",""]]`
flattens to `["idle","idle","run",""]`. -/
theorem C4_sequences_flattened (mn ep : String)
    (bps : List BodyPartEntryProperties) (ans : List AnimationEntryProperties)
    (sqs : List SequenceEntryProperties) :
    ((compileModel mn ep bps ans sqs).sequences.map
        fun sq => (sq.name, sq.animations))
      = (sqs.map fun sq => (sq.data.name, sq.data.animations.flatten)) ∧
    ([["idle", "idle"], ["run", ""]] : List (List String)).flatten
      = ["idle", "idle", "run", ""] := by
  constructor
  · simp [compileModel, List.map_map, Function.comp]
  · decide

/-! ## AnimationEntry handlers (`SequenceMenu.tsx`, lines 57–122) -/

/-- Setter `changeAnimationFileSource` (line 70): field setter for `file_source`. -/
def changeAnimationFileSource (fileSource : String) (d : AnimationData) :
    AnimationData :=
  { d with file_source := fileSource }

/-- Setter `changeAnimationSourceAnimation` (line 74): field setter for
`source_animation`. -/
def changeAnimationSourceAnimation (sourceAnimation : String) (d : AnimationData) :
    AnimationData :=
  { d with source_animation := sourceAnimation }

/-- The `onChange` handler of the `"AnimationSourceAnimation"` select element
(line 113): the source passes the chosen option's value to
`changeAnimationFileSource`. -/
def animationSelectorOnChange (choice : String) (d : AnimationData) :
    AnimationData :=
  changeAnimationFileSource choice d

/-- The component-local signals and the store data of one `AnimationEntry`. -/
structure AnimationEntryState where
  selectedFile : String
  availableAnimations : List String
  data : AnimationData
deriving DecidableEq

/-- The outcome of the file-input `onClick` handler: cache state, entry state,
and the backend calls issued. -/
structure ClickResult where
  cache : Cache
  entry : AnimationEntryState
  calls : List BackendCall
deriving DecidableEq

/-- The file-input `onClick` handler (lines 93–106): awaits
`loadModelFile(selectedFile())`; on `null` it returns leaving everything
untouched; on success it stores the path, sets `source_animation` to the first
animation name of the loaded file (`animations[0]!`, embedded as `headD ""`
since an empty list yields `undefined`), and updates the signals. -/
def animationEntryFileClick (dialog : Option String)
    (oracle : String → Option LoadedFileData) (m : Cache)
    (s : AnimationEntryState) : ClickResult :=
  let r := loadModelFile dialog oracle s.selectedFile m
  match r.result with
  | none => ⟨r.cache, s, r.calls⟩
  | some loadedFile =>
      let animations := loadedFile.data.animations
      ⟨r.cache,
       { selectedFile := loadedFile.path
         availableAnimations := animations
         data := changeAnimationSourceAnimation (animations.headD "")
                   (changeAnimationFileSource loadedFile.path s.data) },
       r.calls⟩

/-! ## C9 — cancellation and oracle failure leave everything untouched -/

/-- C9: if the file dialog is cancelled (`dialog = none`) or the parsing
oracle rejects the selected file (returns `null`), then `loadModelFile`
returns `null`, the reference-count map is unchanged (no count is
incremented), no backend `unload_file` call is issued, and the animation
entry's state — including its `file_source` and previously selected file — is
left untouched. -/
theorem C9_failure_is_noop (dialog : Option String)
    (oracle : String → Option LoadedFileData) (m : Cache)
    (s : AnimationEntryState)
    (h : dialog = none ∨ ∃ p, dialog = some p ∧ oracle p = none) :
    (loadModelFile dialog oracle s.selectedFile m).result = none ∧
    (loadModelFile dialog oracle s.selectedFile m).cache = m ∧
    (∀ q, BackendCall.unloadFile q ∉ (loadModelFile dialog oracle s.selectedFile m).calls) ∧
    (animationEntryFileClick dialog oracle m s).entry = s ∧
    (animationEntryFileClick dialog oracle m s).cache = m := by
  rcases h with h | ⟨p, hd, ho⟩
  · subst h
    simp [loadModelFile, animationEntryFileClick]
  · subst hd
    simp [loadModelFile, animationEntryFileClick, ho]

theorem C9_failure_is_noop_witness :
    (loadModelFile (some ("gone.smd")) (fun _ => none) "" []).result = none ∧
    (loadModelFile (some ("gone.smd")) (fun _ => none) "" []).cache = [] ∧
    (∀ q, BackendCall.unloadFile q ∉
        (loadModelFile (some ("gone.smd")) (fun _ => none) "" []).calls) ∧
    (animationEntryFileClick (some ("gone.smd")) (fun _ => none) []
        ⟨"", [], ⟨"New Animation", "", ""⟩⟩).entry = ⟨"", [], ⟨"New Animation", "", ""⟩⟩ ∧
    (animationEntryFileClick (some ("gone.smd")) (fun _ => none) []
        ⟨"", [], ⟨"New Animation", "", ""⟩⟩).cache = [] := by
  have h := C9_failure_is_noop (some ("gone.smd")) (fun _ => none) []
      ⟨"", [], ⟨"New Animation", "", ""⟩⟩ (Or.inr ⟨"gone.smd", rfl, rfl⟩)
  simpa using h

/-! ## C6 — the explicitly chosen source animation -/

/-- C6: the claim is the spec's intent and the code contradicts it.  Scenario:
a fresh animation entry loads `"walk.smd"` whose file contains the animations
`["idle", "run"]`; the handler correctly defaults `source_animation` to the
first name `"idle"`.  The user then explicitly chooses `"run"` in the
`"AnimationSourceAnimation"` selector — but the select's `onChange` calls
`changeAnimationFileSource` instead of `changeAnimationSourceAnimation`
(`SequenceMenu.tsx` line 113), so the assembled `animation_name` stays
`"idle"` and `file_source` is corrupted to `"run"`. -/
theorem C6_selector_updates_wrong_field :
    (animationEntryFileClick (some ("walk.smd"))
        (fun _ => some ⟨[], ["idle", "run"], []⟩) []
        ⟨"", [], ⟨"New Animation", "", ""⟩⟩).entry.data.source_animation = "idle" ∧
    (animationSelectorOnChange ("run")
        (animationEntryFileClick (some ("walk.smd"))
            (fun _ => some ⟨[], ["idle", "run"], []⟩) []
            ⟨"", [], ⟨"New Animation", "", ""⟩⟩).entry.data).source_animation
      = "idle" ∧
    (animationSelectorOnChange ("run")
        (animationEntryFileClick (some ("walk.smd"))
            (fun _ => some ⟨[], ["idle", "run"], []⟩) []
            ⟨"", [], ⟨"New Animation", "", ""⟩⟩).entry.data).file_source
      = "run" ∧
    (compileModel ("m") ("") [] [⟨0, animationSelectorOnChange ("run")
        (animationEntryFileClick (some ("walk.smd"))
            (fun _ => some ⟨[], ["idle", "run"], []⟩) []
            ⟨"", [], ⟨"New Animation", "", ""⟩⟩).entry.data⟩] []).animations
      = [⟨"New Animation", "run", "idle"⟩] := by
  refine ⟨by decide, by decide, by decide, by decide⟩

/-! ## C5 — model removal and the reference cache -/

/-- The observable outcome of a removal handler: the filtered entry list, the
cache afterwards, the paths passed to the cache's release
(`unloadModelFile`), and the backend `unload_file` notifications issued. -/
structure RemoveModelResult where
  entries : List BodyPartModelEntryProperties
  cache : Cache
  releaseCalls : List String
  backendUnloads : List String
deriving DecidableEq

/-- Handler `removeBodyPartModel` (`src/unnamed/part_000` lines 23–25): the handler's
entire body is the identifier filter over the model list; it contains no call
into `FileOperations`, so the cache is untouched, release is never invoked,
and no backend notification is issued. -/
def removeBodyPartModel (identifier : Nat)
    (models : List BodyPartModelEntryProperties) (m : Cache) : RemoveModelResult :=
  ⟨models.filter (fun model => model.identifier != identifier), m, [], []⟩

structure RemoveAnimationResult where
  entries : List AnimationEntryProperties
  cache : Cache
  releaseCalls : List String
  backendUnloads : List String
deriving DecidableEq

/-- Handler `removeAnimation` (`SequenceMenu.tsx` lines 61–64), for contrast: it calls
`unloadModelFile(selectedFile())` once and then filters by identifier. -/
def removeAnimation (selectedFile : String) (identifier : Nat)
    (animations : List AnimationEntryProperties) (m : Cache) :
    RemoveAnimationResult :=
  let u := unloadModelFile selectedFile m
  ⟨animations.filter (fun animation => animation.identifier != identifier),
    u.1, [selectedFile], u.2⟩

/-- C5: evaluation of the code at the claim's failing input.  Two models with
file sources `"a.smd"` and `"b.smd"`, each cached at count 1; removing the
model with identifier 0 filters the list but performs **zero** release calls,
leaves the cache — including `"a.smd"`'s count — untouched, and issues no
backend unload; the claim (and spec §4.2/§8) requires exactly one release of
`"a.smd"`, whose count would then reach zero.  The sibling `removeAnimation`
handler does perform the release, confirming the omission is a slip. -/
theorem C5_remove_model_never_releases :
    removeBodyPartModel 0
        [⟨0, ⟨"ModelA", false, "a.smd", []⟩⟩, ⟨1, ⟨"ModelB", false, "b.smd", []⟩⟩]
        [("a.smd", 1), ("b.smd", 1)]
      = ⟨[⟨1, ⟨"ModelB", false, "b.smd", []⟩⟩],
          [("a.smd", 1), ("b.smd", 1)], [], []⟩ ∧
    ([] : List String) ≠ ["a.smd"] ∧
    (removeAnimation ("a.smd") 0 [⟨0, ⟨"AnimA", "a.smd", "idle"⟩⟩]
        [("a.smd", 1)]).releaseCalls = ["a.smd"] := by
  refine ⟨by decide, by decide, by decide⟩

/-! ## C10 — the sequence animation grid stays rectangular and non-empty -/

/-- JS `Array.prototype.map((x, index) => ...)` with its running index. -/
def jsMapWithIndex {α : Type} (f : Nat → α → α) : Nat → List α → List α
  | _, [] => []
  | i, a :: rest => f i a :: jsMapWithIndex f (i + 1) rest

/-- One handler of `SequenceEntry` (`SequenceEntry.tsx` lines 26–53) acting on
the `grid` signal. -/
inductive GridOp where
  | addRow
  | removeRow
  | addColumn
  | removeColumn
  | updateValue (rowIndex columnIndex : Nat) (newValue : String)
deriving DecidableEq

/-- The grid transition of each handler.  `addRow` appends
`new Array(grid()[0]?.length).fill('')` — a row of the first row's length, or
`['']` when the grid is empty (`new Array(undefined)` has length 1);
`removeRow` is guarded by `grid().length > 1`; `removeColumn` by
`grid()[0]?.length! > 1` (`undefined > 1` is false); `slice(0, -1)` is
`dropLast`; `updateGridValue` maps over rows and cells with indices. -/
def applyGridOp (g : List (List String)) : GridOp → List (List String)
  | GridOp.addRow =>
      match g.head? with
      | none => g ++ [[""]]
      | some r => g ++ [List.replicate r.length ""]
  | GridOp.removeRow => if g.length > 1 then g.dropLast else g
  | GridOp.addColumn => g.map (fun row => row ++ [""])
  | GridOp.removeColumn =>
      if (g.headD []).length > 1 then g.map (fun row => row.dropLast) else g
  | GridOp.updateValue ri ci v =>
      jsMapWithIndex (fun r row =>
        jsMapWithIndex (fun c cell => if r = ri ∧ c = ci then v else cell) 0 row) 0 g

/-- The grid after a sequence of handler invocations, starting from the
initial `createSignal([['']])`. -/
def runGridOps (ops : List GridOp) : List (List String) :=
  ops.foldl applyGridOp [[""]]

/-- Rectangular and non-empty: at least one row, the first row has at least
one cell, and every row has the first row's length. -/
def gridWF (g : List (List String)) : Prop :=
  0 < g.length ∧ 0 < (g.headD []).length ∧
    ∀ row ∈ g, row.length = (g.headD []).length

theorem length_jsMapWithIndex {α : Type} (f : Nat → α → α) (i : Nat) (l : List α) :
    (jsMapWithIndex f i l).length = l.length := by
  induction l generalizing i with
  | nil => simp [jsMapWithIndex]
  | cons a rest ih => simp [jsMapWithIndex, ih]

theorem mem_jsMapWithIndex {α : Type} (f : Nat → α → α) (i : Nat) (l : List α)
    (b : α) (hb : b ∈ jsMapWithIndex f i l) : ∃ j a, a ∈ l ∧ b = f j a := by
  induction l generalizing i with
  | nil => simp [jsMapWithIndex] at hb
  | cons a rest ih =>
      simp only [jsMapWithIndex, List.mem_cons] at hb
      rcases hb with hb | hb
      · exact ⟨i, a, by simp, hb⟩
      · rcases ih (i + 1) hb with ⟨j, a', ha', hb'⟩
        exact ⟨j, a', by simp [ha'], hb'⟩

/-- Shape preservation of one grid operation: a non-empty grid whose rows all
have the positive length `w` stays non-empty with all rows of one positive
length. -/
theorem rect_applyGridOp (w : Nat) (g : List (List String)) (op : GridOp)
    (hw : 0 < w) (hne : g ≠ []) (hr : ∀ row ∈ g, row.length = w) :
    ∃ wn, 0 < wn ∧ applyGridOp g op ≠ [] ∧
      ∀ row ∈ applyGridOp g op, row.length = wn := by
  cases g with
  | nil => exact absurd rfl hne
  | cons r0 rest =>
      have hr0 : r0.length = w := hr r0 (by simp)
      cases op with
      | addRow =>
          refine ⟨w, hw, by simp [applyGridOp], ?_⟩
          intro row hrow
          simp only [applyGridOp, List.head?_cons] at hrow
          rcases List.mem_append.mp hrow with hrow | hrow
          · exact hr row hrow
          · simp only [List.mem_singleton] at hrow
            subst hrow
            simp [hr0]
      | removeRow =>
          cases rest with
          | nil =>
              refine ⟨w, hw, ?_, ?_⟩
              · simp [applyGridOp]
              · simpa [applyGridOp] using hr
          | cons r1 rest2 =>
              have hcond : 1 < (r0 :: r1 :: rest2).length := by
                simp [List.length_cons]
              refine ⟨w, hw, ?_, ?_⟩
              · simp only [applyGridOp, if_pos hcond, List.dropLast_cons₂]
                exact List.cons_ne_nil _ _
              · intro row hrow
                simp only [applyGridOp, if_pos hcond] at hrow
                exact hr row (List.mem_of_mem_dropLast hrow)
      | addColumn =>
          refine ⟨w + 1, by omega, ?_, ?_⟩
          · simp [applyGridOp]
          · intro row hrow
            simp only [applyGridOp, List.mem_map] at hrow
            rcases hrow with ⟨row0, hrow0, rfl⟩
            simp [hr row0 hrow0]
      | removeColumn =>
          by_cases hc : 1 < r0.length
          · refine ⟨w - 1, by omega, ?_, ?_⟩
            · simp only [applyGridOp, List.headD_cons, if_pos hc, List.map_cons]
              exact List.cons_ne_nil _ _
            · intro row hrow
              simp only [applyGridOp, List.headD_cons, if_pos hc, List.mem_map] at hrow
              rcases hrow with ⟨row0, hrow0, rfl⟩
              simp [List.length_dropLast, hr row0 hrow0]
          · refine ⟨w, hw, ?_, ?_⟩
            · simp only [applyGridOp, List.headD_cons, if_neg hc]
              exact List.cons_ne_nil _ _
            · intro row hrow
              simp only [applyGridOp, List.headD_cons, if_neg hc] at hrow
              exact hr row hrow
      | updateValue ri ci v =>
          refine ⟨w, hw, ?_, ?_⟩
          · simp [applyGridOp, jsMapWithIndex]
          · intro row hrow
            simp only [applyGridOp] at hrow
            rcases mem_jsMapWithIndex _ _ _ _ hrow with ⟨j, row0, hrow0, rfl⟩
            rw [length_jsMapWithIndex]
            exact hr row0 hrow0

theorem gridWF_of_rect (g : List (List String)) (w : Nat) (hw : 0 < w)
    (hne : g ≠ []) (hr : ∀ row ∈ g, row.length = w) : gridWF g := by
  cases g with
  | nil => exact absurd rfl hne
  | cons r0 rest =>
      have hr0 : r0.length = w := hr r0 (by simp)
      refine ⟨by simp, ?_, ?_⟩
      · simpa [List.headD_cons, hr0] using hw
      · intro row hrow
        simp only [List.headD_cons]
        rw [hr row hrow, hr0]

/-- C10: starting from the initial one-cell grid, after any sequence of the
`SequenceEntry` handlers (`addRow`, `removeRow`, `addColumn`, `removeColumn`,
`updateGridValue`) the grid is rectangular — every row has the first row’s
length — and non-empty: at least one row and at least one column; `removeRow`
and `removeColumn` refuse to shrink below one row and one column. -/
theorem C10_grid_always_rectangular (ops : List GridOp) :
    gridWF (runGridOps ops) := by
  have step : ∀ (l : List GridOp) (g : List (List String)),
      (∃ w, 0 < w ∧ g ≠ [] ∧ ∀ row ∈ g, row.length = w) →
      ∃ w, 0 < w ∧ l.foldl applyGridOp g ≠ [] ∧
        ∀ row ∈ l.foldl applyGridOp g, row.length = w := by
    intro l
    induction l with
    | nil => intro g hg; simpa using hg
    | cons op rest ih =>
        intro g hg
        rcases hg with ⟨w, hw, hne, hr⟩
        exact ih _ (rect_applyGridOp w g op hw hne hr)
  rcases step ops [[""]] ⟨1, Nat.one_pos, by simp, by simp⟩ with ⟨w, hw, hne, hr⟩
  exact gridWF_of_rect _ w hw hne hr


end SourceWrench
